import Mathlib

/-!
Verification development for the SplitEZ expense-sharing application.

The definitions below are a shallow embedding of the JavaScript source:
Firestore documents become Lean structures, Firestore collections become
lists, JavaScript objects (string-keyed maps) become key/value lists with
the keys kept in insertion order, and JavaScript numbers become rationals.
Timestamp fields (createdAt, paidAt) and payment-gateway ids carry no
information relevant to the verified claims and are omitted from the
record types.  Each definition names the source function it embeds.
-/

namespace SplitEZ

/-- Directory of registered accounts: (user id, stored email) pairs,
modelling the `users` collection as read by email-equality queries. -/
abbrev UserDir := List (String × String)

/-- Absolute value as computed by `Math.abs` in the source. -/
def ratAbs (x : ℚ) : ℚ := if x < 0 then -x else x

/-- Lower-casing as performed by `toLowerCase()` on the email strings of
the source, modelled character-wise on the string's character list. -/
def strLower (s : String) : String := ⟨s.data.map Char.toLower⟩

/-- Whitespace trimming as performed by `trim()` in the source: drop
leading and trailing whitespace characters. -/
def strTrim (s : String) : String :=
  ⟨((s.data.dropWhile Char.isWhitespace).reverse.dropWhile Char.isWhitespace).reverse⟩

/-- Splitting of a character list at commas, modelling `split(',')`. -/
def splitComma : List Char → List (List Char)
  | [] => [[]]
  | c :: rest =>
    match splitComma rest with
    | [] => [[]]
    | h :: t => if c = ',' then [] :: h :: t else (c :: h) :: t

/-- First-match association lookup, modelling a fetch of the value stored
under a JavaScript object key (object keys are unique, so the first match
is the only match). -/
def lookupAssoc {α : Type} (l : List (String × α)) (k : String) : Option α :=
  (l.find? (fun p => p.1 = k)).map Prod.snd

/-- Update-or-append on a key/value list, modelling the object spread
`{...obj, [k]: v}` from `settlePayment` in `expense-details.js`: an
existing key keeps its position and gets the new value, a fresh key is
appended. -/
def assocSet : List (String × String) → String → String → List (String × String)
  | [], k, v => [(k, v)]
  | p :: rest, k, v => if p.1 = k then (k, v) :: rest else p :: assocSet rest k v

/-- Settlement document as written by `calculateSettlements` in
`analytics.js`: `userId` is the debtor, `owedTo` the creditor, a negative
`amount` is the legacy "payer is owed" record. -/
structure Settlement where
  groupId : String
  expenseId : String
  userId : String
  owedTo : String
  amount : ℚ
  description : String
  status : String
  deriving DecidableEq

/-- Expense document as written by `addExpense` in `expenses.js`.  The
`id` field mirrors `expense.id`, which is absent on the stored document
and set on the in-memory object after `addDoc` returns; the
`settlementStatus` map is absent (empty) until `settlePayment` in
`expense-details.js` writes it. -/
structure Expense where
  id : Option String
  groupId : String
  groupName : String
  description : String
  amount : ℚ
  date : String
  paidBy : String
  splitType : String
  splitMembers : List String
  splitAmounts : List (String × ℚ)
  settlementStatus : List (String × String)
  deriving DecidableEq

/-- Group document as written by `createGroup` in `groups.js`. -/
structure Group where
  name : String
  description : String
  members : List String
  memberEmails : List String
  pendingMemberEmails : List String
  createdBy : String
  deriving DecidableEq

/-- Document store: the `groups`, `expenses` and `settlements`
collections (settlement doc ids are never read by the modelled code, so
settlements are kept as a plain list addressed by position). -/
structure Store where
  groups : List (String × Group)
  expenses : List (String × Expense)
  settlements : List Settlement
  deriving DecidableEq

/-- Entries of the expense's share mapping whose key is not the payer:
the pairs the loop in `calculateSettlements` does not `continue` past,
and the pairs selected by the index-aligned filter that computes
`totalOwed` there. -/
def nonPayerEntries (e : Expense) : List (String × ℚ) :=
  e.splitAmounts.filter (fun p => ¬ p.1 = e.paidBy)

/-- Sum of the non-payer shares, the `totalOwed` value of
`calculateSettlements`. -/
def nonPayerTotal (e : Expense) : ℚ :=
  ((nonPayerEntries e).map Prod.snd).sum

/-- Directed settlement document built for one non-payer entry by the
loop of `calculateSettlements` (`analytics.js` lines 22-37). -/
def mkDirectedSettlement (gid : String) (e : Expense) (member : String) (share : ℚ) :
    Settlement :=
  { groupId := gid
    expenseId := e.id.getD ""
    userId := member
    owedTo := e.paidBy
    amount := share
    description := if e.description = "" then "Expense" else e.description
    status := "pending" }

/-- Reciprocal payer document built by `calculateSettlements`
(`analytics.js` lines 44-57) when the non-payer total is positive. -/
def mkPayerSettlement (gid : String) (e : Expense) : Settlement :=
  { groupId := gid
    expenseId := e.id.getD ""
    userId := e.paidBy
    owedTo := e.paidBy
    amount := -(nonPayerTotal e)
    description := if e.description = "" then "Expense" else e.description
    status := "pending" }

/-- Documents appended to the `settlements` collection by one run of
`calculateSettlements` in `analytics.js`: one directed record per
non-payer entry of the share mapping, plus the reciprocal payer record
when the non-payer total is positive. -/
def calculateSettlements (gid : String) (e : Expense) : List Settlement :=
  ((nonPayerEntries e).map (fun p => mkDirectedSettlement gid e p.1 p.2)) ++
    (if 0 < nonPayerTotal e then [mkPayerSettlement gid e] else [])

/-- Store-level effect of one run of `calculateSettlements`: every
`addDoc` appends a fresh document, with no lookup of existing records. -/
def recordSettlements (st : List Settlement) (gid : String) (e : Expense) :
    List Settlement :=
  st ++ calculateSettlements gid e

/-- Settlement documents returned by the dashboard query of
`loadDashboardStats` in `app.js`: `userId` equal to the current user and
pending status. -/
def pendingFor (uid : String) (ss : List Settlement) : List Settlement :=
  ss.filter (fun s => s.userId = uid ∧ s.status = "pending")

/-- Balance totals of `loadDashboardStats` in `app.js` (lines 50-67): a
fold over the user's pending settlements that adds positive amounts to
`totalOwed` and absolute values of the remaining amounts to
`totalOwedToYou`. -/
def loadDashboardStats (uid : String) (ss : List Settlement) : ℚ × ℚ :=
  (pendingFor uid ss).foldl
    (fun acc s =>
      if 0 < s.amount then (acc.1 + s.amount, acc.2)
      else (acc.1, acc.2 + ratAbs s.amount))
    (0, 0)

/-- Modelled from the amended specification wording: `totalOwed` is the
sum of amounts over the user's pending settlement records with positive
amount. -/
def specTotalOwed (uid : String) (ss : List Settlement) : ℚ :=
  (((pendingFor uid ss).filter (fun s => 0 < s.amount)).map (fun s => s.amount)).sum

/-- Modelled from the amended specification wording: `totalOwedToYou` is
the sum of absolute values over the user's pending settlement records
whose amount is not positive (the legacy "payer is owed" records). -/
def specTotalOwedToYou (uid : String) (ss : List Settlement) : ℚ :=
  (((pendingFor uid ss).filter (fun s => ¬ 0 < s.amount)).map (fun s => ratAbs s.amount)).sum

/-- Status update performed by `handlePaymentSuccess` in `payments.js`
on the settlement document at a given position of the collection (the
payment timestamp and gateway id it also writes are outside the model). -/
def markSettlementPaid : List Settlement → Nat → List Settlement
  | [], _ => []
  | s :: rest, 0 => { s with status := "paid" } :: rest
  | s :: rest, n + 1 => s :: markSettlementPaid rest n

/-- Outcome of `settlePayment` in `expense-details.js`: the alert paths
and the successful update of the expense document. -/
inductive PayResult where
  | notAuthenticated
  | expenseNotFound
  | ownExpense
  | ok (updated : Expense)
  deriving DecidableEq

/-- Embedding of `settlePayment` in `expense-details.js` (lines
894-947): reject an unauthenticated caller, a missing expense, and a
caller equal to the expense's payer; otherwise write the caller's entry
of the expense's `settlementStatus` map to `"paid"` via `updateDoc`. -/
def settlePayment (caller : Option String) (stored : Option Expense) : PayResult :=
  match caller with
  | none => PayResult.notAuthenticated
  | some uid =>
    match stored with
    | none => PayResult.expenseNotFound
    | some e =>
      if uid = e.paidBy then PayResult.ownExpense
      else PayResult.ok
        { e with settlementStatus := assocSet e.settlementStatus uid "paid" }

/-- Validation failures of `addExpense` in `expenses.js` that abort the
submission before anything is written. -/
inductive AddExpenseError where
  | noMembersSelected
  | splitMismatch
  deriving DecidableEq

/-- Expense document assembled by `addExpense` in `expenses.js` (lines
512-524), with the group name looked up as in lines 509-510. -/
def buildExpenseDoc (st : Store) (gid descr : String) (amount : ℚ)
    (date paidBy stype : String) (selected : List String)
    (shares : List (String × ℚ)) : Expense :=
  { id := none
    groupId := gid
    groupName :=
      match lookupAssoc st.groups gid with
      | some g => g.name
      | none => "Unknown Group"
    description := descr
    amount := amount
    date := date
    paidBy := paidBy
    splitType := stype
    splitMembers := selected
    splitAmounts := shares
    settlementStatus := [] }

/-- Persisting tail of `addExpense` in `expenses.js` (lines 508-530):
`addDoc` the expense document, then run `calculateSettlements` on the
in-memory expense object carrying the new document id. -/
def commitExpense (st : Store) (newId gid descr : String) (amount : ℚ)
    (date paidBy stype : String) (selected : List String)
    (shares : List (String × ℚ)) : Store :=
  { st with
      expenses := st.expenses ++
        [(newId, buildExpenseDoc st gid descr amount date paidBy stype selected shares)]
      settlements :=
        st.settlements ++ calculateSettlements gid
          { buildExpenseDoc st gid descr amount date paidBy stype selected shares with
              id := some newId } }

/-- Share list assembled for a custom split by `addExpense` in
`expenses.js` (lines 495-500): each selected member's entered amount,
defaulting to 0 (`parseFloat(...) || 0`). -/
def customShares (selected : List String) (custom : List (String × ℚ)) :
    List (String × ℚ) :=
  selected.map (fun m => (m, (lookupAssoc custom m).getD 0))

/-- Embedding of `addExpense` in `expenses.js` (lines 466-552).  Inputs
mirror the form fields: the selected member checkboxes and, for a custom
split, the per-member amount inputs (an empty or unparsable input reads
as 0, the `parseFloat(...) || 0` fallback).  Selected member ids are the
distinct checkbox values, so the share mapping is modelled as the list
of (member, share) pairs in selection order.  The result pairs the
validation error (if any) with the store, which is unchanged on every
error path because both checks run before the first `addDoc`. -/
def addExpense (st : Store) (newId gid descr : String) (amount : ℚ)
    (date paidBy stype : String) (selected : List String)
    (custom : List (String × ℚ)) : Option AddExpenseError × Store :=
  if selected.isEmpty then (some AddExpenseError.noMembersSelected, st)
  else if stype = "equal" then
    (none, commitExpense st newId gid descr amount date paidBy stype selected
      (selected.map (fun m => (m, amount / (selected.length : ℚ)))))
  else if 1 / 100 <
      ratAbs (((customShares selected custom).map Prod.snd).sum - amount) then
    (some AddExpenseError.splitMismatch, st)
  else
    (none, commitExpense st newId gid descr amount date paidBy stype selected
      (customShares selected custom))

/-- Account ids returned by the Firestore query
`where('email', '==', email)` over the `users` collection. -/
def resolveEmail (users : UserDir) (email : String) : List String :=
  (users.filter (fun u => u.2 = email)).map Prod.fst

/-- Insertion into a JavaScript `Set` kept in insertion order: add the
element at the end unless it is already present. -/
def setAdd (l : List String) (x : String) : List String :=
  if x ∈ l then l else l ++ [x]

/-- Contents of `new Set(l)` listed by `Array.from`: the elements of `l`
deduplicated, first occurrences kept in order. -/
def setOfList (l : List String) : List String := l.foldl setAdd []

/-- Account ids an email resolves to in `loadGroupMembers`
(`expenses.js`): the lower-cased lookup, with a literal-casing fallback
used only when the lower-cased lookup found nothing and the email is not
already lower-case. -/
def matchIds (users : UserDir) (email : String) : List String :=
  let lc := strLower email
  let byLc := resolveEmail users lc
  if ¬ byLc.isEmpty then byLc
  else if ¬ lc = email then resolveEmail users email
  else []

/-- Accumulator of the pending-email loop of `loadGroupMembers`: the
growing member-id set and the `newlyResolvedEmails` list. -/
structure ResolveState where
  memberIds : List String
  newlyResolved : List String
  deriving DecidableEq

/-- One iteration of the pending-email loop of `loadGroupMembers`
(`expenses.js` lines 355-382): skip a blank (trimmed-empty) entry,
otherwise add every matching account id to the member set and append the
trimmed email to `newlyResolvedEmails` when at least one id matched. -/
def resolvePendingStep (users : UserDir) (st : ResolveState) (pEmail : String) :
    ResolveState :=
  let email := strTrim pEmail
  if email = "" then st
  else
    let ids := matchIds users email
    { memberIds := ids.foldl setAdd st.memberIds
      newlyResolved :=
        if ids.isEmpty then st.newlyResolved else st.newlyResolved ++ [email] }

/-- Loop state reached by `loadGroupMembers` in `expenses.js` after the
member-email loop (lines 323-351) and the pending-email loop (lines
355-382): the member-id set is seeded from the stored member list, grown
by the ids matching each member email, then by the pending-email loop. -/
def resolveFold (users : UserDir) (g : Group) : ResolveState :=
  g.pendingMemberEmails.foldl (resolvePendingStep users)
    { memberIds :=
        g.memberEmails.foldl
          (fun acc e => (matchIds users e).foldl setAdd acc) (setOfList g.members)
      newlyResolved := [] }

/-- Membership-resolution part of `loadGroupMembers` in `expenses.js`
(lines 309-398): run the email loops, then persist the rebuilt arrays in
one `updateDoc` only when some pending email resolved (the returned
flag); otherwise the stored group is left untouched. -/
def resolveGroupMembers (users : UserDir) (g : Group) : Group × Bool :=
  if (resolveFold users g).newlyResolved.isEmpty then (g, false)
  else
    ({ g with
        members := (resolveFold users g).memberIds
        memberEmails :=
          setOfList (g.memberEmails ++ (resolveFold users g).newlyResolved.map strLower)
        pendingMemberEmails :=
          g.pendingMemberEmails.filter
            (fun e => ¬ e ∈ (resolveFold users g).newlyResolved) },
      true)

/-- Outcome of `deleteGroup` in `groups.js`. -/
inductive DeleteGroupResult where
  | groupNotFound
  | notCreator
  | ok (st : Store)
  deriving DecidableEq

/-- Embedding of `deleteGroup` in `groups.js` (lines 293-337): verify the
group exists and the caller is its creator, delete every expense whose
`groupId` matches, then delete the group document.  No settlement
document is touched. -/
def deleteGroup (caller gid : String) (st : Store) : DeleteGroupResult :=
  match lookupAssoc st.groups gid with
  | none => DeleteGroupResult.groupNotFound
  | some g =>
    if ¬ g.createdBy = caller then DeleteGroupResult.notCreator
    else DeleteGroupResult.ok
      { st with
          expenses := st.expenses.filter (fun p => ¬ p.2.groupId = gid)
          groups := st.groups.filter (fun p => ¬ p.1 = gid) }

/-- Inner forEach of the email lookups in `createGroup` (`groups.js`):
push every returned id not already present, remembering whether any push
happened (`foundUid`). -/
def addFoundIds (mem : List String) (ids : List String) : List String × Bool :=
  ids.foldl
    (fun acc uid => if uid ∈ acc.1 then acc else (acc.1 ++ [uid], true))
    (mem, false)

/-- One iteration of the member-email loop of `createGroup` (`groups.js`
lines 145-188): lower-cased lookup, literal-casing fallback when nothing
new was added, and the email pushed to the pending list when no id was
added at all. -/
def createGroupStep (users : UserDir) (st : List String × List String)
    (raw : String) : List String × List String :=
  let lc := strLower raw
  let r1 := addFoundIds st.1 (resolveEmail users lc)
  let r2 :=
    if ¬ r1.2 ∧ ¬ raw = lc then addFoundIds r1.1 (resolveEmail users raw) else r1
  if r2.2 then (r2.1, st.2) else (r2.1, st.2 ++ [raw])

/-- Comma-splitting of the invitee input field in `createGroup`: split,
trim, and drop empty entries. -/
def parseMemberEmails (input : String) : List String :=
  ((splitComma input.data).map (fun cs => strTrim ⟨cs⟩)).filter (fun e => ¬ e = "")

/-- Embedding of `createGroup` in `groups.js` (lines 129-200): the member
id list starts with the creating user, each invitee email is resolved
(unresolved ones stay pending), and the group document stores the
lower-cased invitee emails and `createdBy := caller`. -/
def createGroup (caller : String) (users : UserDir) (name descr input : String) :
    Group :=
  let res := (parseMemberEmails input).foldl (createGroupStep users) ([caller], [])
  { name := name
    description := descr
    members := res.1
    memberEmails := (parseMemberEmails input).map strLower
    pendingMemberEmails := res.2
    createdBy := caller }

/-- Expense of the reconciliation walkthrough in the specification:
amount 300 paid by `P`, split equally with payer `P` and members `M1`,
`M2` selected, so `addExpense` assigns 100 to each of the three. -/
def demoExpense300 : Expense :=
  { id := some "e1"
    groupId := "g"
    groupName := "G"
    description := "Trip"
    amount := 300
    date := "2024-01-01"
    paidBy := "P"
    splitType := "equal"
    splitMembers := ["P", "M1", "M2"]
    splitAmounts := [("P", 100), ("M1", 100), ("M2", 100)]
    settlementStatus := [] }

/-- Settlement documents `calculateSettlements` derives from
`demoExpense300`: `M1` owes `P` 100, `M2` owes `P` 100, and the legacy
payer record of -200 for `P`. -/
def demoSettlements : List Settlement := calculateSettlements "g" demoExpense300

/-- Expense whose share mapping holds a zero share for a non-payer
member (reachable from a custom split whose inputs leave a member at 0). -/
def zeroShareExpense : Expense :=
  { id := some "e0"
    groupId := "g"
    groupName := "G"
    description := ""
    amount := 100
    date := "2024-01-01"
    paidBy := "p"
    splitType := "custom"
    splitMembers := ["q", "m"]
    splitAmounts := [("q", 100), ("m", 0)]
    settlementStatus := [] }

/-- Expense used for the settle-payment claims: paid by `P`, owed by
`M1` and `M2`, no settlement entry recorded yet. -/
def lunchExpense : Expense :=
  { id := some "e1"
    groupId := "g"
    groupName := "G"
    description := "Lunch"
    amount := 100
    date := "2024-01-02"
    paidBy := "P"
    splitType := "equal"
    splitMembers := ["M1", "M2"]
    splitAmounts := [("M1", 50), ("M2", 50)]
    settlementStatus := [] }

lemma mem_setAdd {l : List String} {x y : String} :
    y ∈ setAdd l x ↔ y ∈ l ∨ y = x := by
  rw [setAdd]
  split
  · rename_i h
    constructor
    · exact fun hy => Or.inl hy
    · rintro (hy | rfl)
      · exact hy
      · exact h
  · simp [List.mem_append]

lemma setAdd_nodup {l : List String} {x : String} (h : l.Nodup) :
    (setAdd l x).Nodup := by
  rw [setAdd]
  split
  · exact h
  · rename_i hx
    simp [List.nodup_append, h, hx]

lemma foldl_setAdd_mem (ids : List String) (acc : List String) (y : String) :
    y ∈ ids.foldl setAdd acc ↔ y ∈ acc ∨ y ∈ ids := by
  induction ids generalizing acc with
  | nil => simp
  | cons i t ih => simp [ih, mem_setAdd, or_assoc]

lemma foldl_setAdd_nodup (ids : List String) {acc : List String} (h : acc.Nodup) :
    (ids.foldl setAdd acc).Nodup := by
  induction ids generalizing acc with
  | nil => exact h
  | cons i t ih => exact ih (setAdd_nodup h)

lemma foldl_setAdd_of_subset {ids acc : List String}
    (h : ∀ x ∈ ids, x ∈ acc) : ids.foldl setAdd acc = acc := by
  induction ids with
  | nil => rfl
  | cons i t ih =>
    rw [List.foldl_cons, setAdd, if_pos (h i (by simp))]
    exact ih (fun x hx => h x (by simp [hx]))

lemma foldl_setAdd_append {l : List String} (h : l.Nodup) :
    ∀ acc : List String, (∀ x ∈ l, ¬ x ∈ acc) → l.foldl setAdd acc = acc ++ l := by
  induction l with
  | nil => intro acc _; simp
  | cons i t ih =>
    intro acc hd
    rw [List.foldl_cons, setAdd, if_neg (hd i (by simp))]
    rw [List.nodup_cons] at h
    rw [ih h.2 (acc ++ [i])]
    · simp
    · intro x hx
      simp only [List.mem_append, List.mem_singleton]
      rintro (hc | rfl)
      · exact hd x (by simp [hx]) hc
      · exact h.1 hx

lemma mem_setOfList {l : List String} {y : String} :
    y ∈ setOfList l ↔ y ∈ l := by
  simp [setOfList, foldl_setAdd_mem]

lemma setOfList_nodup (l : List String) : (setOfList l).Nodup :=
  foldl_setAdd_nodup l List.nodup_nil

lemma setOfList_eq_self {l : List String} (h : l.Nodup) : setOfList l = l := by
  rw [setOfList, foldl_setAdd_append h [] (by simp), List.nil_append]

lemma filterCongrMem {α : Type} {p q : α → Bool} {l : List α}
    (h : ∀ a ∈ l, p a = q a) : l.filter p = l.filter q := by
  induction l with
  | nil => rfl
  | cons x t ih =>
    rw [List.filter_cons, List.filter_cons, h x (by simp),
      ih (fun a ha => h a (by simp [ha]))]

lemma dashboard_foldl (l : List Settlement) (a b : ℚ) :
    l.foldl
      (fun acc s =>
        if 0 < s.amount then (acc.1 + s.amount, acc.2)
        else (acc.1, acc.2 + ratAbs s.amount)) (a, b) =
    (a + ((l.filter (fun s => 0 < s.amount)).map (fun s => s.amount)).sum,
     b + ((l.filter (fun s => ¬ 0 < s.amount)).map (fun s => ratAbs s.amount)).sum) := by
  induction l generalizing a b with
  | nil => simp
  | cons s t ih =>
    by_cases h : 0 < s.amount
    · simp [h, ih, add_assoc]
    · have h2 : s.amount ≤ 0 := le_of_not_lt h
      simp [h, h2, ih, add_assoc]

lemma nonPayerEntries_demo :
    nonPayerEntries demoExpense300 = [("M1", 100), ("M2", 100)] := by
  simp [nonPayerEntries, demoExpense300]

lemma nonPayerTotal_demo : nonPayerTotal demoExpense300 = 200 := by
  rw [nonPayerTotal, nonPayerEntries_demo]
  norm_num

lemma mkPayer_demo :
    mkPayerSettlement "g" demoExpense300 =
      { groupId := "g", expenseId := "e1", userId := "P", owedTo := "P",
        amount := -200, description := "Trip", status := "pending" } := by
  rw [mkPayerSettlement, nonPayerTotal_demo]
  simp [demoExpense300]

lemma demoSettlements_eval :
    demoSettlements =
      [{ groupId := "g", expenseId := "e1", userId := "M1", owedTo := "P",
         amount := 100, description := "Trip", status := "pending" },
       { groupId := "g", expenseId := "e1", userId := "M2", owedTo := "P",
         amount := 100, description := "Trip", status := "pending" },
       { groupId := "g", expenseId := "e1", userId := "P", owedTo := "P",
         amount := -200, description := "Trip", status := "pending" }] := by
  rw [demoSettlements, calculateSettlements, nonPayerEntries_demo, nonPayerTotal_demo,
    if_pos (by norm_num : (0 : ℚ) < 200), mkPayer_demo]
  simp [mkDirectedSettlement, demoExpense300]

lemma markPaid_demo :
    markSettlementPaid demoSettlements 0 =
      [{ groupId := "g", expenseId := "e1", userId := "M1", owedTo := "P",
         amount := 100, description := "Trip", status := "paid" },
       { groupId := "g", expenseId := "e1", userId := "M2", owedTo := "P",
         amount := 100, description := "Trip", status := "pending" },
       { groupId := "g", expenseId := "e1", userId := "P", owedTo := "P",
         amount := -200, description := "Trip", status := "pending" }] := by
  rw [demoSettlements_eval]
  rfl

lemma dash_M1_demo : loadDashboardStats "M1" demoSettlements = (100, 0) := by
  rw [loadDashboardStats, demoSettlements_eval]
  simp [pendingFor, ratAbs]

lemma dash_P_demo : loadDashboardStats "P" demoSettlements = (0, 200) := by
  rw [loadDashboardStats, demoSettlements_eval]
  simp [pendingFor, ratAbs]

lemma dash_M1_after_demo :
    loadDashboardStats "M1" (markSettlementPaid demoSettlements 0) = (0, 0) := by
  rw [loadDashboardStats, markPaid_demo]
  simp [pendingFor, ratAbs]

lemma dash_M2_after_demo :
    loadDashboardStats "M2" (markSettlementPaid demoSettlements 0) = (100, 0) := by
  rw [loadDashboardStats, markPaid_demo]
  simp [pendingFor, ratAbs]

lemma map_mk_filter_key (gid : String) (e : Expense) (sa : List (String × ℚ))
    (m : String) (a : ℚ) (hnd : (sa.map Prod.fst).Nodup) (hmem : (m, a) ∈ sa)
    (hm : ¬ m = e.paidBy) :
    ((sa.filter (fun p => ¬ p.1 = e.paidBy)).map
        (fun p => mkDirectedSettlement gid e p.1 p.2)).filter
      (fun s => s.userId = m) = [mkDirectedSettlement gid e m a] := by
  induction sa with
  | nil => cases hmem
  | cons p t ih =>
    rw [List.map_cons, List.nodup_cons] at hnd
    rcases List.mem_cons.mp hmem with heq | hmem2
    · have hp1 : p.1 = m := by rw [← heq]
      have hkeep : ¬ p.1 = e.paidBy := by rw [hp1]; exact hm
      rw [List.filter_cons_of_pos (by simpa using hkeep), List.map_cons,
        List.filter_cons_of_pos (by simp [mkDirectedSettlement, hp1])]
      have htail :
          ((t.filter (fun p => ¬ p.1 = e.paidBy)).map
              (fun p => mkDirectedSettlement gid e p.1 p.2)).filter
            (fun s => s.userId = m) = [] := by
        rw [List.filter_eq_nil_iff]
        intro s hs
        obtain ⟨q, hq, rfl⟩ := List.mem_map.mp hs
        have hqt : q ∈ t := List.mem_of_mem_filter hq
        have hq1 : ¬ q.1 = m := by
          intro hc
          apply hnd.1
          rw [hp1, ← hc]
          exact List.mem_map.mpr ⟨q, hqt, rfl⟩
        simp [mkDirectedSettlement, hq1]
      rw [htail]
      have : mkDirectedSettlement gid e p.1 p.2 = mkDirectedSettlement gid e m a := by
        rw [← heq]
      rw [this]
    · have hp1 : ¬ p.1 = m := by
        intro hc
        exact hnd.1 (by
          rw [hc]
          exact List.mem_map.mpr ⟨(m, a), hmem2, rfl⟩)
      by_cases hp : p.1 = e.paidBy
      · rw [List.filter_cons_of_neg (by simpa using hp)]
        exact ih hnd.2 hmem2
      · rw [List.filter_cons_of_pos (by simpa using hp), List.map_cons,
          List.filter_cons_of_neg (by simp [mkDirectedSettlement, hp1])]
        exact ih hnd.2 hmem2

lemma calc_filter_key (gid : String) (e : Expense) (m : String) (a : ℚ)
    (hnd : (e.splitAmounts.map Prod.fst).Nodup) (hmem : (m, a) ∈ e.splitAmounts)
    (hm : ¬ m = e.paidBy) :
    (calculateSettlements gid e).filter (fun s => s.userId = m) =
      [mkDirectedSettlement gid e m a] := by
  rw [calculateSettlements, List.filter_append, nonPayerEntries,
    map_mk_filter_key gid e e.splitAmounts m a hnd hmem hm]
  have hpayer :
      (if 0 < nonPayerTotal e then [mkPayerSettlement gid e] else []).filter
        (fun s => s.userId = m) = [] := by
    split
    · rw [List.filter_cons_of_neg
        (by simp [mkPayerSettlement]; exact fun hc => hm hc.symm), List.filter_nil]
    · rfl
  rw [hpayer, List.append_nil]

lemma calc_filter_payer (gid : String) (e : Expense) :
    (calculateSettlements gid e).filter (fun s => s.userId = e.paidBy) =
      if 0 < nonPayerTotal e then [mkPayerSettlement gid e] else [] := by
  rw [calculateSettlements, List.filter_append]
  have hdir :
      ((nonPayerEntries e).map (fun p => mkDirectedSettlement gid e p.1 p.2)).filter
        (fun s => s.userId = e.paidBy) = [] := by
    rw [List.filter_eq_nil_iff]
    intro s hs
    obtain ⟨q, hq, rfl⟩ := List.mem_map.mp hs
    have hq1 : ¬ q.1 = e.paidBy := by
      have := List.mem_filter.mp hq
      simpa using this.2
    simp [mkDirectedSettlement, hq1]
  rw [hdir, List.nil_append]
  split
  · rw [List.filter_cons_of_pos (by simp [mkPayerSettlement]), List.filter_nil]
  · rfl

lemma calc_mem_fields (gid : String) (e : Expense) :
    ∀ s ∈ calculateSettlements gid e, s.status = "pending" ∧ s.owedTo = e.paidBy := by
  intro s hs
  rw [calculateSettlements, List.mem_append] at hs
  rcases hs with hs | hs
  · obtain ⟨p, _, rfl⟩ := List.mem_map.mp hs
    exact ⟨rfl, rfl⟩
  · split at hs
    · rcases List.mem_singleton.mp hs with rfl
      exact ⟨rfl, rfl⟩
    · cases hs

lemma zeroShare_eval :
    calculateSettlements "g" zeroShareExpense =
      [{ groupId := "g", expenseId := "e0", userId := "q", owedTo := "p",
         amount := 100, description := "Expense", status := "pending" },
       { groupId := "g", expenseId := "e0", userId := "m", owedTo := "p",
         amount := 0, description := "Expense", status := "pending" },
       { groupId := "g", expenseId := "e0", userId := "p", owedTo := "p",
         amount := -100, description := "Expense", status := "pending" }] := by
  have h1 : nonPayerEntries zeroShareExpense = [("q", 100), ("m", 0)] := by
    simp [nonPayerEntries, zeroShareExpense]
  have h2 : nonPayerTotal zeroShareExpense = 100 := by
    rw [nonPayerTotal, h1]
    norm_num
  have h3 : mkPayerSettlement "g" zeroShareExpense =
      { groupId := "g", expenseId := "e0", userId := "p", owedTo := "p",
        amount := -100, description := "Expense", status := "pending" } := by
    rw [mkPayerSettlement, h2]
    simp [zeroShareExpense]
  rw [calculateSettlements, h1, h2, if_pos (by norm_num : (0 : ℚ) < 100), h3]
  simp [mkDirectedSettlement, zeroShareExpense]

lemma addExpense_equal (st : Store) (newId gid descr : String) (amount : ℚ)
    (date payer : String) (selected : List String) (custom : List (String × ℚ))
    (h : ¬ selected = []) :
    addExpense st newId gid descr amount date payer "equal" selected custom =
      (none, commitExpense st newId gid descr amount date payer "equal" selected
        (selected.map (fun m => (m, amount / (selected.length : ℚ))))) := by
  rw [addExpense, if_neg (by simpa using h), if_pos rfl]

/-- C1: the loop of `calculateSettlements` skips only the payer's key and
filters nothing by sign, so a non-positive non-payer share still produces
a settlement record; the claim's "no settlement record is created for a
non-positive share" fails on `zeroShareExpense`, whose zero share for
member `m` yields a pending record of amount 0 (the claim would predict
no record with debtor `m` at all). -/
theorem C1_counterexample :
    calculateSettlements "g" zeroShareExpense =
      [{ groupId := "g", expenseId := "e0", userId := "q", owedTo := "p",
         amount := 100, description := "Expense", status := "pending" },
       { groupId := "g", expenseId := "e0", userId := "m", owedTo := "p",
         amount := 0, description := "Expense", status := "pending" },
       { groupId := "g", expenseId := "e0", userId := "p", owedTo := "p",
         amount := -100, description := "Expense", status := "pending" }] ∧
    ("m", 0) ∈ zeroShareExpense.splitAmounts ∧
    ¬ "m" = zeroShareExpense.paidBy ∧ ¬ (0 : ℚ) < 0 :=
  ⟨zeroShare_eval, by simp [zeroShareExpense], by simp [zeroShareExpense], by norm_num⟩

/-- C1 (amended): recording an expense's settlements creates exactly one
directed pending record `debtor=member, creditor=payer, amount=share` for
each (member, share) pair of the share mapping whose member differs from
the payer — regardless of the sign of the share — plus exactly one
reciprocal payer record of amount minus the non-payer total when that
total is positive; every created record is pending with creditor equal to
the payer. -/
theorem C1_settlement_records (gid : String) (e : Expense)
    (hnd : (e.splitAmounts.map Prod.fst).Nodup) :
    (∀ m a, (m, a) ∈ e.splitAmounts → ¬ m = e.paidBy →
        (calculateSettlements gid e).filter (fun s => s.userId = m) =
          [mkDirectedSettlement gid e m a]) ∧
    ((calculateSettlements gid e).filter (fun s => s.userId = e.paidBy) =
        if 0 < nonPayerTotal e then [mkPayerSettlement gid e] else []) ∧
    (∀ s ∈ calculateSettlements gid e, s.status = "pending" ∧ s.owedTo = e.paidBy) :=
  ⟨fun m a hmem hm => calc_filter_key gid e m a hnd hmem hm,
   calc_filter_payer gid e,
   calc_mem_fields gid e⟩

/-- Witness for C1: `C1_settlement_records` instantiated at the concrete
expense `demoExpense300`, whose share-mapping keys are distinct. -/
theorem C1_settlement_records_witness :
    (calculateSettlements "g" demoExpense300).filter (fun s => s.userId = "M1") =
      [mkDirectedSettlement "g" demoExpense300 "M1" 100] :=
  (C1_settlement_records "g" demoExpense300 (by simp [demoExpense300])).1 "M1" 100
    (by simp [demoExpense300]) (by simp [demoExpense300])

/-- C2: the dashboard aggregation scopes both totals by the settlement's
debtor field (`userId`), never by the creditor field (`owedTo`): for the
payer `P` of the 300-split walkthrough, the code reports
`totalOwedToYou = 200` (the absolute value of P's legacy record), while
the claim's defining sum over settlements with creditor `P` and pending
status evaluates to 0, so the claim's equation for `totalOwedToYou` fails. -/
theorem C2_counterexample :
    (loadDashboardStats "P" demoSettlements).2 = 200 ∧
    ((demoSettlements.filter (fun s => s.owedTo = "P" ∧ s.status = "pending")).map
        (fun s => s.amount)).sum = 0 :=
  ⟨by rw [dash_P_demo], by rw [demoSettlements_eval]; norm_num⟩

/-- C2 (amended): for every user, `loadDashboardStats` returns
`totalOwed` equal to the sum of amounts over the user's pending
settlements (debtor field) with positive amount, and `totalOwedToYou`
equal to the sum of absolute values over the user's pending settlements
with non-positive amount (the legacy payer records); on the concrete
300-split walkthrough the claimed numbers hold: M1 owes 100, P is owed
200, and after M1's settlement is marked paid M1 owes 0 while M2 still
owes 100. -/
theorem C2_dashboard_amended :
    (∀ (uid : String) (ss : List Settlement),
        loadDashboardStats uid ss = (specTotalOwed uid ss, specTotalOwedToYou uid ss)) ∧
    (loadDashboardStats "M1" demoSettlements).1 = 100 ∧
    (loadDashboardStats "P" demoSettlements).2 = 200 ∧
    (loadDashboardStats "M1" (markSettlementPaid demoSettlements 0)).1 = 0 ∧
    (loadDashboardStats "M2" (markSettlementPaid demoSettlements 0)).1 = 100 :=
  ⟨fun uid ss => by
      rw [loadDashboardStats, dashboard_foldl]
      simp [specTotalOwed, specTotalOwedToYou],
   by rw [dash_M1_demo],
   by rw [dash_P_demo],
   by rw [dash_M1_after_demo],
   by rw [dash_M2_after_demo]⟩

/-- C3: the equal split of `addExpense` divides by the number of selected
members including the payer: with amount 100, payer `P` and selected
members `[P, A]`, the stored mapping is `P ↦ 50, A ↦ 50`, so the payer
appears as a key with a strictly positive share, and the non-payer share
is 50, not the claimed `amount / #non-payers = 100 / 1`. -/
theorem C3_counterexample :
    (addExpense { groups := [], expenses := [], settlements := [] } "e1" "g" "Lunch"
        100 "d" "P" "equal" ["P", "A"] []).2.expenses.map (fun p => p.2.splitAmounts) =
      [[("P", 50), ("A", 50)]] ∧
    (0 : ℚ) < 50 ∧ ¬ ((50 : ℚ) = 100 / 1) := by
  refine ⟨?_, by norm_num, by norm_num⟩
  rw [addExpense_equal _ _ _ _ _ _ _ _ _ (by simp)]
  simp [commitExpense, buildExpenseDoc]
  norm_num

/-- C3 (amended): under the equal policy with a non-empty selection, the
stored expense assigns to every selected member — the payer included —
the share `amount / #selected`; when the payer is selected the mapping
contains the payer's key with that share, which is strictly positive
whenever the amount is. -/
theorem C3_equal_split (st : Store) (newId gid descr : String) (amount : ℚ)
    (date payer : String) (selected : List String) (custom : List (String × ℚ))
    (h : ¬ selected = []) :
    (addExpense st newId gid descr amount date payer "equal" selected custom).1 = none ∧
    (addExpense st newId gid descr amount date payer "equal" selected custom).2.expenses =
      st.expenses ++
        [(newId, buildExpenseDoc st gid descr amount date payer "equal" selected
            (selected.map (fun m => (m, amount / (selected.length : ℚ)))))] ∧
    (buildExpenseDoc st gid descr amount date payer "equal" selected
        (selected.map (fun m => (m, amount / (selected.length : ℚ))))).paidBy = payer ∧
    (payer ∈ selected →
      (payer, amount / (selected.length : ℚ)) ∈
        (buildExpenseDoc st gid descr amount date payer "equal" selected
          (selected.map (fun m => (m, amount / (selected.length : ℚ))))).splitAmounts) ∧
    (payer ∈ selected → 0 < amount →
      ∃ q, (payer, q) ∈
          (buildExpenseDoc st gid descr amount date payer "equal" selected
            (selected.map (fun m => (m, amount / (selected.length : ℚ))))).splitAmounts ∧
        0 < q) := by
  rw [addExpense_equal st newId gid descr amount date payer selected custom h]
  refine ⟨rfl, rfl, rfl, ?_, ?_⟩
  · intro hp
    exact List.mem_map.mpr ⟨payer, hp, rfl⟩
  · intro hp ha
    refine ⟨amount / (selected.length : ℚ), List.mem_map.mpr ⟨payer, hp, rfl⟩, ?_⟩
    have hl : 0 < (selected.length : ℚ) := by
      exact_mod_cast List.length_pos.mpr h
    exact div_pos ha hl

/-- Witness for C3: `C3_equal_split` instantiated at amount 100, payer
`P`, selection `[P, A]` over the empty store. -/
theorem C3_equal_split_witness :
    (addExpense { groups := [], expenses := [], settlements := [] } "e1" "g" "Lunch"
        (100 : ℚ) "d" "P" "equal" ["P", "A"] []).1 = none :=
  (C3_equal_split { groups := [], expenses := [], settlements := [] } "e1" "g" "Lunch"
    100 "d" "P" ["P", "A"] [] (by simp)).1

/-- C4: a custom split whose supplied shares differ from the amount by
more than 0.01 is rejected by `addExpense` with the split-mismatch
validation error before any document is written: the returned store is
the input store unchanged, so no Expense and no Settlement record is
created. -/
theorem C4_custom_mismatch (st : Store) (newId gid descr : String) (amount : ℚ)
    (date payer : String) (selected : List String) (custom : List (String × ℚ))
    (hne : ¬ selected = [])
    (hmm : 1 / 100 <
      ratAbs (((customShares selected custom).map Prod.snd).sum - amount)) :
    addExpense st newId gid descr amount date payer "custom" selected custom =
      (some AddExpenseError.splitMismatch, st) := by
  rw [addExpense, if_neg (by simpa using hne), if_neg (by decide), if_pos hmm]

/-- Witness for C4: a custom split of amount 100 whose single supplied
share is 90 is rejected and leaves the empty store unchanged. -/
theorem C4_custom_mismatch_witness :
    addExpense { groups := [], expenses := [], settlements := [] } "e1" "g" "Dinner"
        (100 : ℚ) "d" "P" "custom" ["A"] [("A", 90)] =
      (some AddExpenseError.splitMismatch,
        { groups := [], expenses := [], settlements := [] }) :=
  C4_custom_mismatch { groups := [], expenses := [], settlements := [] } "e1" "g"
    "Dinner" 100 "d" "P" ["A"] [("A", 90)] (by simp)
    (by
      norm_num [customShares, lookupAssoc, ratAbs])

lemma mkDirected_demo_M1 :
    mkDirectedSettlement "g" demoExpense300 "M1" 100 =
      { groupId := "g", expenseId := "e1", userId := "M1", owedTo := "P",
        amount := 100, description := "Trip", status := "pending" } := by
  simp [mkDirectedSettlement, demoExpense300]

/-- C5: `calculateSettlements` performs no lookup of existing settlement
documents, so re-running settlement recording for the same expense id
appends a second copy of every record: after two runs on
`demoExpense300`, the store holds two settlements with the same (debtor
`M1`, creditor `P`, expense `e1`) triple, violating the at-most-one
invariant the claim states. -/
theorem C5_duplicate_on_retry :
    (recordSettlements (recordSettlements [] "g" demoExpense300) "g"
        demoExpense300).count (mkDirectedSettlement "g" demoExpense300 "M1" 100) = 2 := by
  rw [recordSettlements, recordSettlements, List.nil_append, mkDirected_demo_M1]
  rw [show calculateSettlements "g" demoExpense300 = demoSettlements from rfl,
    demoSettlements_eval]
  decide

lemma assocSet_of_lookup {l : List (String × String)} {k v : String}
    (h : lookupAssoc l k = some v) : assocSet l k v = l := by
  induction l with
  | nil => simp [lookupAssoc] at h
  | cons p t ih =>
    obtain ⟨a, b⟩ := p
    by_cases hk : a = k
    · subst hk
      have hb : b = v := by simpa [lookupAssoc] using h
      subst hb
      simp [assocSet]
    · have ht : lookupAssoc t k = some v := by
        simpa [lookupAssoc, hk] using h
      simp [assocSet, hk, ih ht]

lemma markSettlementPaid_idem (ss : List Settlement) (i : Nat) :
    markSettlementPaid (markSettlementPaid ss i) i = markSettlementPaid ss i := by
  induction ss generalizing i with
  | nil => rfl
  | cons s t ih =>
    cases i with
    | zero => rfl
    | succ n =>
      rw [markSettlementPaid, markSettlementPaid, ih]

/-- C6: `settlePayment` rejects only the caller who is the expense's
payer; it performs no debtor check at all, so a caller who is not the
debtor of any settlement of the expense (here `X`, absent from
`lunchExpense`'s share mapping) succeeds and records a paid entry for
themself instead of failing with Forbidden. -/
theorem C6_counterexample :
    settlePayment (some "X") (some lunchExpense) =
      PayResult.ok { lunchExpense with settlementStatus := [("X", "paid")] } ∧
    ¬ ∃ a, ("X", a) ∈ lunchExpense.splitAmounts :=
  ⟨by rw [settlePayment]; rfl,
   by
    rintro ⟨a, ha⟩
    simp [lunchExpense] at ha⟩

/-- C6 (amended): marking paid through the expense path fails only when
the caller is the expense's payer; any other caller succeeds, the write
touching exactly the caller's own `settlementStatus` entry, and a repeat
call by a caller whose entry is already "paid" succeeds and returns the
stored expense unchanged.  The settlement-record path
(`handlePaymentSuccess`) applies no authorization check and is
idempotent on the settlement's status. -/
theorem C6_mark_paid (uid : String) (e : Expense) :
    (uid = e.paidBy → settlePayment (some uid) (some e) = PayResult.ownExpense) ∧
    (¬ uid = e.paidBy → settlePayment (some uid) (some e) =
        PayResult.ok { e with settlementStatus := assocSet e.settlementStatus uid "paid" }) ∧
    (¬ uid = e.paidBy → lookupAssoc e.settlementStatus uid = some "paid" →
        settlePayment (some uid) (some e) = PayResult.ok e) ∧
    (∀ (ss : List Settlement) (i : Nat),
        markSettlementPaid (markSettlementPaid ss i) i = markSettlementPaid ss i) := by
  refine ⟨fun h => ?_, fun h => ?_, fun h hl => ?_, markSettlementPaid_idem⟩
  · rw [settlePayment, if_pos h]
  · rw [settlePayment, if_neg h]
  · rw [settlePayment, if_neg h, assocSet_of_lookup hl]

/-- Witness for C6: a caller distinct from the payer whose entry is
already paid gets a successful no-op, via `C6_mark_paid` at `M1` and
`lunchExpense` with `M1` marked paid. -/
theorem C6_mark_paid_witness :
    settlePayment (some "M1")
        (some { lunchExpense with settlementStatus := [("M1", "paid")] }) =
      PayResult.ok { lunchExpense with settlementStatus := [("M1", "paid")] } :=
  (C6_mark_paid "M1" { lunchExpense with settlementStatus := [("M1", "paid")] }).2.2.1
    (by simp [lunchExpense]) (by simp [lookupAssoc])

/-- C7: the expense document is not immutable: `settlePayment` in
`expense-details.js` writes a `settlementStatus` map onto the stored
expense via `updateDoc`, so after the debtor `M1` settles, the stored
expense differs from the created one. -/
theorem C7_counterexample :
    settlePayment (some "M1") (some lunchExpense) =
      PayResult.ok { lunchExpense with settlementStatus := [("M1", "paid")] } ∧
    ¬ { lunchExpense with settlementStatus := [("M1", "paid")] } = lunchExpense :=
  ⟨by rw [settlePayment]; rfl,
   by
    intro h
    have := congrArg Expense.settlementStatus h
    simp [lunchExpense] at this⟩

/-- C7 (amended): marking a debt paid rewrites only the expense's
`settlementStatus` map (setting the caller's entry to "paid"); every
other field of the stored expense document — amount, description, date,
payer, split data, group — is unchanged by the update. -/
theorem C7_expense_frame (uid : String) (e e2 : Expense)
    (h : settlePayment (some uid) (some e) = PayResult.ok e2) :
    e2.id = e.id ∧ e2.groupId = e.groupId ∧ e2.groupName = e.groupName ∧
    e2.description = e.description ∧ e2.amount = e.amount ∧ e2.date = e.date ∧
    e2.paidBy = e.paidBy ∧ e2.splitType = e.splitType ∧
    e2.splitMembers = e.splitMembers ∧ e2.splitAmounts = e.splitAmounts ∧
    e2.settlementStatus = assocSet e.settlementStatus uid "paid" := by
  rw [settlePayment] at h
  by_cases hp : uid = e.paidBy
  · rw [if_pos hp] at h
    cases h
  · rw [if_neg hp] at h
    cases h
    exact ⟨rfl, rfl, rfl, rfl, rfl, rfl, rfl, rfl, rfl, rfl, rfl⟩

/-- Witness for C7: `C7_expense_frame` at the debtor `M1` settling
`lunchExpense`. -/
theorem C7_expense_frame_witness :
    { lunchExpense with settlementStatus := [("M1", "paid")] }.amount =
        lunchExpense.amount ∧
      { lunchExpense with settlementStatus := [("M1", "paid")] }.settlementStatus =
        assocSet lunchExpense.settlementStatus "M1" "paid" :=
  ⟨(C7_expense_frame "M1" lunchExpense
      { lunchExpense with settlementStatus := [("M1", "paid")] }
      (by rw [settlePayment]; rfl)).2.2.2.2.1,
   (C7_expense_frame "M1" lunchExpense
      { lunchExpense with settlementStatus := [("M1", "paid")] }
      (by rw [settlePayment]; rfl)).2.2.2.2.2.2.2.2.2.2⟩

lemma map_eq_self {l : List String} {f : String → String}
    (h : ∀ e ∈ l, f e = e) : l.map f = l := by
  induction l with
  | nil => rfl
  | cons x t ih =>
    rw [List.map_cons, h x (by simp), ih (fun e he => h e (by simp [he]))]

lemma resolvePendingStep_blank (users : UserDir) (st : ResolveState) (p : String)
    (hb : strTrim p = "") : resolvePendingStep users st p = st := by
  simp only [resolvePendingStep]
  rw [if_pos hb]

lemma resolvePendingStep_nonblank (users : UserDir) (st : ResolveState) (p : String)
    (hb : ¬ strTrim p = "") :
    resolvePendingStep users st p =
      { memberIds := (matchIds users (strTrim p)).foldl setAdd st.memberIds
        newlyResolved :=
          if (matchIds users (strTrim p)).isEmpty then st.newlyResolved
          else st.newlyResolved ++ [strTrim p] } := by
  simp only [resolvePendingStep]
  rw [if_neg hb]

lemma resolvePending_resolved (users : UserDir) (pend : List String)
    (st : ResolveState) :
    (pend.foldl (resolvePendingStep users) st).newlyResolved =
      st.newlyResolved ++
        (pend.map strTrim).filter
          (fun e => ¬ e = "" ∧ ¬ (matchIds users e).isEmpty) := by
  induction pend generalizing st with
  | nil => simp
  | cons p t ih =>
    rw [List.foldl_cons, List.map_cons]
    by_cases hb : strTrim p = ""
    · rw [resolvePendingStep_blank users st p hb, ih,
        List.filter_cons_of_neg (by simp [hb])]
    · rw [resolvePendingStep_nonblank users st p hb, ih]
      by_cases hi : (matchIds users (strTrim p)).isEmpty = true
      · rw [if_pos hi, List.filter_cons_of_neg (by simp [hb, hi])]
      · rw [if_neg hi, List.filter_cons_of_pos (by simp [hb, hi])]
        simp

lemma resolvePending_mem (users : UserDir) (pend : List String)
    (st : ResolveState) (y : String) :
    y ∈ (pend.foldl (resolvePendingStep users) st).memberIds ↔
      y ∈ st.memberIds ∨
        ∃ e ∈ pend, ¬ strTrim e = "" ∧ y ∈ matchIds users (strTrim e) := by
  induction pend generalizing st with
  | nil => simp
  | cons p t ih =>
    rw [List.foldl_cons]
    by_cases hb : strTrim p = ""
    · rw [resolvePendingStep_blank users st p hb, ih]
      constructor
      · rintro (h | ⟨e, he, hne, hy⟩)
        · exact Or.inl h
        · exact Or.inr ⟨e, by simp [he], hne, hy⟩
      · rintro (h | ⟨e, he, hne, hy⟩)
        · exact Or.inl h
        · rcases List.mem_cons.mp he with rfl | he2
          · exact absurd hb hne
          · exact Or.inr ⟨e, he2, hne, hy⟩
    · rw [resolvePendingStep_nonblank users st p hb, ih]
      simp only [foldl_setAdd_mem]
      constructor
      · rintro ((h | hy) | ⟨e, he, hne, hy⟩)
        · exact Or.inl h
        · exact Or.inr ⟨p, by simp, hb, hy⟩
        · exact Or.inr ⟨e, by simp [he], hne, hy⟩
      · rintro (h | ⟨e, he, hne, hy⟩)
        · exact Or.inl (Or.inl h)
        · rcases List.mem_cons.mp he with rfl | he2
          · exact Or.inl (Or.inr hy)
          · exact Or.inr ⟨e, he2, hne, hy⟩

lemma resolvePending_nodup (users : UserDir) (pend : List String)
    (st : ResolveState) (h : st.memberIds.Nodup) :
    (pend.foldl (resolvePendingStep users) st).memberIds.Nodup := by
  induction pend generalizing st with
  | nil => exact h
  | cons p t ih =>
    rw [List.foldl_cons]
    by_cases hb : strTrim p = ""
    · rw [resolvePendingStep_blank users st p hb]
      exact ih st h
    · rw [resolvePendingStep_nonblank users st p hb]
      exact ih _ (foldl_setAdd_nodup _ h)

lemma phase1_fixed (users : UserDir) (emails : List String) (acc : List String)
    (h : ∀ e ∈ emails, ∀ uid ∈ matchIds users e, uid ∈ acc) :
    emails.foldl (fun a e => (matchIds users e).foldl setAdd a) acc = acc := by
  induction emails with
  | nil => rfl
  | cons e t ih =>
    rw [List.foldl_cons, foldl_setAdd_of_subset (h e (by simp))]
    exact ih (fun e2 he2 uid hu => h e2 (by simp [he2]) uid hu)

lemma phase1_nodup (users : UserDir) (emails : List String) (acc : List String)
    (h : acc.Nodup) :
    (emails.foldl (fun a e => (matchIds users e).foldl setAdd a) acc).Nodup := by
  induction emails generalizing acc with
  | nil => exact h
  | cons e t ih => exact ih _ (foldl_setAdd_nodup _ h)

lemma resolveFold_resolved (users : UserDir) (g : Group) :
    (resolveFold users g).newlyResolved =
      (g.pendingMemberEmails.map strTrim).filter
        (fun e => ¬ e = "" ∧ ¬ (matchIds users e).isEmpty) := by
  rw [resolveFold, resolvePending_resolved]
  rfl

lemma resolveFold_mem (users : UserDir) (g : Group) (y : String)
    (hmem : ∀ e ∈ g.memberEmails, ∀ uid ∈ matchIds users e, uid ∈ g.members) :
    y ∈ (resolveFold users g).memberIds ↔
      y ∈ g.members ∨
        ∃ e ∈ g.pendingMemberEmails, ¬ strTrim e = "" ∧
          y ∈ matchIds users (strTrim e) := by
  rw [resolveFold, resolvePending_mem]
  have hm1 :
      g.memberEmails.foldl
        (fun acc e => (matchIds users e).foldl setAdd acc) (setOfList g.members) =
      setOfList g.members :=
    phase1_fixed users g.memberEmails (setOfList g.members)
      (fun e he uid hu => mem_setOfList.mpr (hmem e he uid hu))
  simp only [hm1, mem_setOfList]

lemma resolveFold_nodup (users : UserDir) (g : Group) :
    (resolveFold users g).memberIds.Nodup := by
  rw [resolveFold]
  exact resolvePending_nodup users _ _
    (phase1_nodup users _ _ (setOfList_nodup g.members))

lemma resolve_again_noop (users : UserDir) (g2 : Group)
    (h : ∀ e ∈ g2.pendingMemberEmails,
        strTrim e = e ∧ (e = "" ∨ (matchIds users e).isEmpty = true)) :
    resolveGroupMembers users g2 = (g2, false) := by
  have hmap : g2.pendingMemberEmails.map strTrim = g2.pendingMemberEmails :=
    map_eq_self (fun e he => (h e he).1)
  have hnil : (resolveFold users g2).newlyResolved = [] := by
    rw [resolveFold_resolved, hmap, List.filter_eq_nil_iff]
    intro e he
    rcases (h e he).2 with h0 | h0 <;> simp [h0]
  rw [resolveGroupMembers, if_pos (by simp [hnil])]

/-- C8 counterexample group: one member email that matches account `A`
but whose account is not yet confirmed, plus one pending email matching
account `B`. -/
def cex8group : Group :=
  { name := "G"
    description := ""
    members := []
    memberEmails := ["a@x.com"]
    pendingMemberEmails := ["b@x.com"]
    createdBy := "A" }

/-- C8 counterexample user directory. -/
def cex8users : UserDir := [("A", "a@x.com"), ("B", "b@x.com")]

/-- C8: the promotion write saves the whole in-memory member set, which
also absorbs accounts matched from the group's member-email list, not
only from pending invitations: resolving `cex8group` stores members
`[A, B]` although account `A` matches no pending email (the only pending
email, `b@x.com`, resolves to `B`).  The write therefore does not add
"precisely the account identifiers of the matching pending emails". -/
theorem C8_counterexample :
    (resolveGroupMembers cex8users cex8group).1.members = ["A", "B"] ∧
    ¬ "A" ∈ cex8group.members ∧
    cex8group.pendingMemberEmails = ["b@x.com"] ∧
    matchIds cex8users "b@x.com" = ["B"] := by
  refine ⟨?_, by simp [cex8group], by simp [cex8group], by decide⟩
  decide

/-- C8 (amended): for a group whose confirmed member list is
duplicate-free, whose pending emails are trim-normalized, and whose
member emails only match already-confirmed accounts, one resolution run
(a) ends with a confirmed set holding exactly the former members plus
the accounts matching some non-blank pending email, (b) keeps the
confirmed set duplicate-free, (c) leaves pending exactly the blank or
unmatched pending emails, and (d) is idempotent: a second run returns
the resolved group unchanged and skips the persisted write (flag
`false`). -/
theorem C8_resolution (users : UserDir) (g : Group)
    (hnd : g.members.Nodup)
    (htrim : ∀ e ∈ g.pendingMemberEmails, strTrim e = e)
    (hmem : ∀ e ∈ g.memberEmails, ∀ uid ∈ matchIds users e, uid ∈ g.members) :
    (∀ uid, uid ∈ (resolveGroupMembers users g).1.members ↔
        uid ∈ g.members ∨
          ∃ e ∈ g.pendingMemberEmails, ¬ e = "" ∧ uid ∈ matchIds users e) ∧
    (resolveGroupMembers users g).1.members.Nodup ∧
    ((resolveGroupMembers users g).1.pendingMemberEmails =
        g.pendingMemberEmails.filter
          (fun e => e = "" ∨ (matchIds users e).isEmpty)) ∧
    resolveGroupMembers users ((resolveGroupMembers users g).1) =
      ((resolveGroupMembers users g).1, false) := by
  have hres : (resolveFold users g).newlyResolved =
      g.pendingMemberEmails.filter
        (fun e => ¬ e = "" ∧ ¬ (matchIds users e).isEmpty) := by
    rw [resolveFold_resolved, map_eq_self htrim]
  have hmemiff : ∀ uid, uid ∈ (resolveFold users g).memberIds ↔
      uid ∈ g.members ∨
        ∃ e ∈ g.pendingMemberEmails, ¬ e = "" ∧ uid ∈ matchIds users e := by
    intro uid
    rw [resolveFold_mem users g uid hmem]
    constructor
    · rintro (h | ⟨e, he, hne, hy⟩)
      · exact Or.inl h
      · rw [htrim e he] at hne hy
        exact Or.inr ⟨e, he, hne, hy⟩
    · rintro (h | ⟨e, he, hne, hy⟩)
      · exact Or.inl h
      · refine Or.inr ⟨e, he, ?_, ?_⟩ <;> rw [htrim e he] <;> assumption
  have hmain :
      (∀ uid, uid ∈ (resolveGroupMembers users g).1.members ↔
          uid ∈ g.members ∨
            ∃ e ∈ g.pendingMemberEmails, ¬ e = "" ∧ uid ∈ matchIds users e) ∧
      (resolveGroupMembers users g).1.members.Nodup ∧
      ((resolveGroupMembers users g).1.pendingMemberEmails =
          g.pendingMemberEmails.filter
            (fun e => e = "" ∨ (matchIds users e).isEmpty)) := by
    by_cases hempty : (resolveFold users g).newlyResolved.isEmpty = true
    · have hrg : resolveGroupMembers users g = (g, false) := by
        rw [resolveGroupMembers, if_pos hempty]
      have hnone : ∀ e ∈ g.pendingMemberEmails,
          e = "" ∨ (matchIds users e).isEmpty = true := by
        intro e he
        have hflt : g.pendingMemberEmails.filter
            (fun e => ¬ e = "" ∧ ¬ (matchIds users e).isEmpty) = [] := by
          rw [← hres]
          exact List.isEmpty_iff.mp hempty
        have h2 := List.filter_eq_nil_iff.mp hflt e he
        by_contra hc
        push_neg at hc
        exact h2 (by simp [hc.1, hc.2])
      refine ⟨?_, ?_, ?_⟩
      · intro uid
        rw [hrg]
        constructor
        · exact Or.inl
        · rintro (h | ⟨e, he, hne, hy⟩)
          · exact h
          · rcases hnone e he with h0 | h0
            · exact absurd h0 hne
            · exact absurd (List.isEmpty_iff.mp h0) (List.ne_nil_of_mem hy)
      · rw [hrg]
        exact hnd
      · rw [hrg]
        symm
        rw [List.filter_eq_self]
        intro e he
        rcases hnone e he with h0 | h0 <;> simp [h0]
    · have hwrite : resolveGroupMembers users g =
          ({ g with
              members := (resolveFold users g).memberIds
              memberEmails := setOfList
                (g.memberEmails ++ (resolveFold users g).newlyResolved.map strLower)
              pendingMemberEmails :=
                g.pendingMemberEmails.filter
                  (fun e => ¬ e ∈ (resolveFold users g).newlyResolved) }, true) := by
        rw [resolveGroupMembers, if_neg hempty]
      have hpend : g.pendingMemberEmails.filter
            (fun e => ¬ e ∈ (resolveFold users g).newlyResolved) =
          g.pendingMemberEmails.filter
            (fun e => e = "" ∨ (matchIds users e).isEmpty) := by
        apply filterCongrMem
        intro e he
        apply decide_eq_decide.mpr
        have hiff : e ∈ (resolveFold users g).newlyResolved ↔
            ¬ e = "" ∧ ¬ (matchIds users e).isEmpty = true := by
          rw [hres, List.mem_filter]
          constructor
          · intro h
            simpa using h.2
          · intro h
            exact ⟨he, by simpa using h⟩
        rw [hiff]
        constructor
        · intro h
          by_contra hc
          push_neg at hc
          exact h ⟨hc.1, hc.2⟩
        · rintro (h0 | h0) ⟨hne, hni⟩
          · exact hne h0
          · exact hni h0
      refine ⟨?_, ?_, ?_⟩
      · intro uid
        rw [hwrite]
        exact hmemiff uid
      · rw [hwrite]
        exact resolveFold_nodup users g
      · rw [hwrite]
        exact hpend
  refine ⟨hmain.1, hmain.2.1, hmain.2.2, ?_⟩
  apply resolve_again_noop
  intro e he
  rw [hmain.2.2] at he
  have he2 := List.mem_filter.mp he
  exact ⟨htrim e he2.1, by simpa using he2.2⟩

/-- C8 witness group: the specification's walkthrough, pending emails
`[a@x.com, b@x.com]` of which only `a@x.com` matches an account. -/
def wit8group : Group :=
  { name := "G"
    description := ""
    members := []
    memberEmails := []
    pendingMemberEmails := ["a@x.com", "b@x.com"]
    createdBy := "A" }

/-- C8 witness user directory: only `a@x.com` is registered. -/
def wit8users : UserDir := [("A", "a@x.com")]

/-- Witness for C8: `C8_resolution` instantiated on the walkthrough
group, reading off that exactly the unmatched email stays pending. -/
theorem C8_resolution_witness :
    (resolveGroupMembers wit8users wit8group).1.pendingMemberEmails =
      wit8group.pendingMemberEmails.filter
        (fun e => e = "" ∨ (matchIds wit8users e).isEmpty) :=
  (C8_resolution wit8users wit8group (by simp [wit8group]) (by decide)
    (by simp [wit8group])).2.2.1

/-- C9 counterexample group, created by `P`. -/
def cex9group : Group :=
  { name := "G"
    description := ""
    members := ["P", "M1"]
    memberEmails := []
    pendingMemberEmails := []
    createdBy := "P" }

/-- C9 counterexample settlement referencing group `g`. -/
def cex9settlement : Settlement :=
  { groupId := "g"
    expenseId := "e1"
    userId := "M1"
    owedTo := "P"
    amount := 50
    description := "Lunch"
    status := "pending" }

/-- C9 counterexample store: the group, one expense and one settlement
that reference it. -/
def cex9store : Store :=
  { groups := [("g", cex9group)]
    expenses := [("e1", lunchExpense)]
    settlements := [cex9settlement] }

/-- C9: `deleteGroup` deletes the group's expenses and the group
document but never queries the settlements collection, so a settlement
referencing the deleted group survives: deleting `g` from `cex9store`
leaves `cex9settlement` (whose `groupId` is `g`) in the store. -/
theorem C9_counterexample :
    deleteGroup "P" "g" cex9store =
      DeleteGroupResult.ok
        { groups := [], expenses := [], settlements := [cex9settlement] } ∧
    cex9settlement.groupId = "g" := by
  constructor
  · decide
  · rfl

/-- C9 (amended): a successful group deletion (existing group, caller is
its creator) removes the group document and every Expense whose
`groupId` references it — the expense deletions are awaited before the
group document is removed in the source — but leaves the settlements
collection untouched: no Settlement record is deleted. -/
theorem C9_delete_group (caller gid : String) (st : Store) (g : Group)
    (hg : lookupAssoc st.groups gid = some g) (hc : g.createdBy = caller) :
    deleteGroup caller gid st =
      DeleteGroupResult.ok
        { groups := st.groups.filter (fun p => ¬ p.1 = gid)
          expenses := st.expenses.filter (fun p => ¬ p.2.groupId = gid)
          settlements := st.settlements } := by
  rw [deleteGroup, hg]
  simp [hc]

/-- Witness for C9: `C9_delete_group` at the concrete store
`cex9store`, its group `g` and creator `P`. -/
theorem C9_delete_group_witness :
    deleteGroup "P" "g" cex9store =
      DeleteGroupResult.ok
        { groups := cex9store.groups.filter (fun p => ¬ p.1 = "g")
          expenses := cex9store.expenses.filter (fun p => ¬ p.2.groupId = "g")
          settlements := cex9store.settlements } :=
  C9_delete_group "P" "g" cex9store cex9group (by simp [cex9store, lookupAssoc]) rfl

lemma foldl_addFound_mem (ids : List String) (acc : List String × Bool) (x : String)
    (h : x ∈ acc.1) :
    x ∈ (ids.foldl
      (fun acc uid => if uid ∈ acc.1 then acc else (acc.1 ++ [uid], true)) acc).1 := by
  induction ids generalizing acc with
  | nil => exact h
  | cons i t ih =>
    rw [List.foldl_cons]
    by_cases hi : i ∈ acc.1
    · rw [if_pos hi]
      exact ih acc h
    · rw [if_neg hi]
      exact ih _ (by simp [h])

lemma addFoundIds_mem {mem ids : List String} {x : String} (h : x ∈ mem) :
    x ∈ (addFoundIds mem ids).1 := by
  rw [addFoundIds]
  exact foldl_addFound_mem ids (mem, false) x h

lemma createGroupStep_mem (users : UserDir) (st : List String × List String)
    (raw : String) {x : String} (h : x ∈ st.1) :
    x ∈ (createGroupStep users st raw).1 := by
  simp only [createGroupStep]
  have h1 : x ∈ (addFoundIds st.1 (resolveEmail users (strLower raw))).1 :=
    addFoundIds_mem h
  have h2 : ∀ r2 : List String × Bool, x ∈ r2.1 →
      x ∈ (if r2.2 then (r2.1, st.2) else (r2.1, st.2 ++ [raw])).1 := by
    intro r2 hr
    split <;> exact hr
  apply h2
  split
  · exact addFoundIds_mem h1
  · exact h1

lemma foldl_createGroupStep_mem (users : UserDir) (emails : List String)
    (st : List String × List String) (x : String) (h : x ∈ st.1) :
    x ∈ (emails.foldl (createGroupStep users) st).1 := by
  induction emails generalizing st with
  | nil => exact h
  | cons e t ih =>
    rw [List.foldl_cons]
    exact ih _ (createGroupStep_mem users st e h)

/-- C10: every group built by `createGroup` contains its creator in the
confirmed member list — the member-id list starts as `[caller]` and the
email-resolution loop only appends — and stores `createdBy = caller`,
whatever the invitee input resolves to. -/
theorem C10_creator_in_members (caller : String) (users : UserDir)
    (name descr input : String) :
    caller ∈ (createGroup caller users name descr input).members ∧
    (createGroup caller users name descr input).createdBy = caller :=
  ⟨foldl_createGroupStep_mem users (parseMemberEmails input) ([caller], []) caller
      (by simp),
   rfl⟩

end SplitEZ
